import Mathlib

/- Verification development for the imaging pixel-transform library.

   The repository ships its unit tests (transform_test.go, io_test.go); the
   implementation files (transform.go, io.go) are not part of the source tree,
   so every operation below is modelled from the specification (sections 3,
   4.2, 4.3, 4.5, 6 and 9 of spec.md) and checked against the literal buffers
   and error values recorded in the unit tests. -/

namespace Imaging

/-- Modelled from the spec: the canonical pixel buffer (spec section 3).
A buffer owns a byte sequence of length stride * height; the pixel at (x, y)
occupies the four bytes starting at y * stride + 4 * x, as R, G, B, A.
The fields minX and minY record the bounds offset of the Go image.Rect;
pixel access is relative to the rectangle minimum, as in image.NRGBA. -/
@[ext]
structure NRGBA where
  width : Nat
  height : Nat
  minX : Int
  minY : Int
  stride : Nat
  pix : List Nat
deriving DecidableEq

/-- The four channel bytes of the pixel at column x, row y (spec section 3:
bytes at y * stride + 4 * x through + 3, as R, G, B, A). -/
def pixelAt (img : NRGBA) (x y : Nat) : List Nat :=
  [img.pix.getD (y * img.stride + 4 * x) 0,
   img.pix.getD (y * img.stride + 4 * x + 1) 0,
   img.pix.getD (y * img.stride + 4 * x + 2) 0,
   img.pix.getD (y * img.stride + 4 * x + 3) 0]

/-- One output row of w pixels, laid out left to right. -/
def rowPix (w : Nat) (g : Nat → List Nat) : List Nat :=
  (List.range w).flatMap g

/-- The byte sequence of a w by ht output buffer whose pixel at (x, y) is
given by f x y, rows stored top to bottom. -/
def buildPix (w ht : Nat) (f : Nat → Nat → List Nat) : List Nat :=
  (List.range ht).flatMap (fun y => rowPix w (fun x => f x y))

/-- A freshly allocated output buffer: bounds anchored at the origin, stride
exactly 4 * width, pixel (x, y) given by f x y. Every transform in the test
suite returns such a buffer (Rect at (0, 0), tight stride). -/
def mkImage (w ht : Nat) (f : Nat → Nat → List Nat) : NRGBA :=
  { width := w, height := ht, minX := 0, minY := 0, stride := 4 * w,
    pix := buildPix w ht f }

/-- Modelled from the spec: FlipH (spec 4.3, flipH(x,y) = (w-1-x, y)); the
implementation file transform.go is absent from the source tree. -/
def FlipH (img : NRGBA) : NRGBA :=
  mkImage img.width img.height (fun x y => pixelAt img (img.width - 1 - x) y)

/-- Modelled from the spec: FlipV (spec 4.3, flipV(x,y) = (x, h-1-y)). -/
def FlipV (img : NRGBA) : NRGBA :=
  mkImage img.width img.height (fun x y => pixelAt img x (img.height - 1 - y))

/-- Modelled from the spec: Transpose (spec 4.3, dims swap, out(y,x) = in(x,y)). -/
def Transpose (img : NRGBA) : NRGBA :=
  mkImage img.height img.width (fun x y => pixelAt img y x)

/-- Modelled from the spec: Transverse (spec 4.3, dims swap,
out(h-1-y, w-1-x) = in(x,y)). -/
def Transverse (img : NRGBA) : NRGBA :=
  mkImage img.height img.width
    (fun x y => pixelAt img (img.width - 1 - y) (img.height - 1 - x))

/-- Modelled from the spec: Rotate90 (spec 4.3, dims swap,
out(y, w-1-x) = in(x,y)), counter-clockwise. -/
def Rotate90 (img : NRGBA) : NRGBA :=
  mkImage img.height img.width (fun x y => pixelAt img (img.width - 1 - y) x)

/-- Modelled from the spec: Rotate180 (spec 4.3, out(w-1-x, h-1-y) = in(x,y)). -/
def Rotate180 (img : NRGBA) : NRGBA :=
  mkImage img.width img.height
    (fun x y => pixelAt img (img.width - 1 - x) (img.height - 1 - y))

/-- Modelled from the spec: Rotate270 (spec 4.3, dims swap,
out(h-1-y, x) = in(x,y)). -/
def Rotate270 (img : NRGBA) : NRGBA :=
  mkImage img.height img.width (fun x y => pixelAt img y (img.height - 1 - x))

/-- Modelled from the spec: Clone copies the source into a fresh buffer
anchored at the origin with tight stride (spec section 3 ownership rules;
used by Rotate for the zero-angle case). -/
def Clone (img : NRGBA) : NRGBA :=
  mkImage img.width img.height (fun x y => pixelAt img x y)

/-- A buffer in the canonical output form produced by the transforms:
anchored at the origin, tight stride, byte length 4 * width * height. -/
def Normalized (img : NRGBA) : Prop :=
  img.minX = 0 ∧ img.minY = 0 ∧ img.stride = 4 * img.width ∧
    img.pix.length = 4 * img.width * img.height

instance (img : NRGBA) : Decidable (Normalized img) :=
  inferInstanceAs (Decidable (img.minX = 0 ∧ img.minY = 0 ∧
    img.stride = 4 * img.width ∧ img.pix.length = 4 * img.width * img.height))

/-- A zero-area buffer: width or height is zero (spec section 3). -/
def zeroArea (img : NRGBA) : Prop :=
  img.width = 0 ∨ img.height = 0

instance (img : NRGBA) : Decidable (zeroArea img) :=
  inferInstanceAs (Decidable (img.width = 0 ∨ img.height = 0))

/-- A buffer whose bounds rectangle is anchored at the origin and whose
stride is exactly four times its width. -/
def anchored (img : NRGBA) : Prop :=
  img.minX = 0 ∧ img.minY = 0 ∧ img.stride = 4 * img.width

/-- The x coordinate of the point (x, y) of the source rectangle [0,w] x
[0,ht] after rotation by θ radians about the rectangle center. -/
noncomputable def rotX (w ht : Nat) (θ x y : ℝ) : ℝ :=
  (w : ℝ) / 2 + (x - (w : ℝ) / 2) * Real.cos θ - (y - (ht : ℝ) / 2) * Real.sin θ

/-- The y coordinate of the point (x, y) of the source rectangle after
rotation by θ radians about the rectangle center. -/
noncomputable def rotY (w ht : Nat) (θ x y : ℝ) : ℝ :=
  (ht : ℝ) / 2 + (x - (w : ℝ) / 2) * Real.sin θ + (y - (ht : ℝ) / 2) * Real.cos θ

/-- Modelled from the spec: the output bounding box of an arbitrary-angle
rotation (spec 4.2) - the minimal integer rectangle containing the four
rotated corners of the source rectangle [0,w] x [0,h], rotated about its
center; a zero-area source yields a zero-area result. The angle is in
degrees. -/
noncomputable def rotatedSize (w ht : Nat) (angle : Int) : Nat × Nat :=
  if w = 0 ∨ ht = 0 then (0, 0)
  else
    let θ : ℝ := (angle : ℝ) * Real.pi / 180
    let xmin := min (min (rotX w ht θ 0 0) (rotX w ht θ (w : ℝ) 0))
      (min (rotX w ht θ 0 (ht : ℝ)) (rotX w ht θ (w : ℝ) (ht : ℝ)))
    let xmax := max (max (rotX w ht θ 0 0) (rotX w ht θ (w : ℝ) 0))
      (max (rotX w ht θ 0 (ht : ℝ)) (rotX w ht θ (w : ℝ) (ht : ℝ)))
    let ymin := min (min (rotY w ht θ 0 0) (rotY w ht θ (w : ℝ) 0))
      (min (rotY w ht θ 0 (ht : ℝ)) (rotY w ht θ (w : ℝ) (ht : ℝ)))
    let ymax := max (max (rotY w ht θ 0 0) (rotY w ht θ (w : ℝ) 0))
      (max (rotY w ht θ 0 (ht : ℝ)) (rotY w ht θ (w : ℝ) (ht : ℝ)))
    ((⌈xmax⌉ - ⌊xmin⌋).toNat, (⌈ymax⌉ - ⌊ymin⌋).toNat)

/-- Modelled from the spec: Rotate (spec 4.2); transform.go is absent from
the source tree. The angle, restricted here to whole degrees as in every
claim, is normalized modulo 360 into [0,360); exact multiples of 90 dispatch
to Clone and the axis transforms; other angles produce a buffer whose
dimensions follow rotatedSize. The bilinear pixel synthesis of the general
branch is not modelled (no claim concerns those pixel values); the
background color stands in for every general-branch pixel. -/
noncomputable def Rotate (img : NRGBA) (angle : Int) (bg : List Nat) : NRGBA :=
  let a := angle % 360
  if a = 0 then Clone img
  else if a = 90 then Rotate90 img
  else if a = 180 then Rotate180 img
  else if a = 270 then Rotate270 img
  else
    let sz := rotatedSize img.width img.height a
    mkImage sz.1 sz.2 (fun _ _ => bg)

/-- Modelled from the spec: the orientation corrector (spec 4.5) - the fixed
table mapping an EXIF orientation tag to its normalizing composition of axis
transforms; tag 1 and unrecognized tags are the identity. -/
def fixOrientation (tag : Nat) (img : NRGBA) : NRGBA :=
  match tag with
  | 2 => FlipH img
  | 3 => Rotate180 img
  | 4 => FlipV img
  | 5 => Transpose img
  | 6 => Rotate270 img
  | 7 => Transverse img
  | 8 => Rotate90 img
  | _ => img

/-- Modelled from the spec: the pixel buffer stored in a file carrying EXIF
orientation tag t whose correctly displayed content is the scene img - per
the EXIF convention each tag is the inverse of the corresponding corrective
transform in the fixOrientation table (spec sections 3 and 4.5). -/
def storedImage (tag : Nat) (img : NRGBA) : NRGBA :=
  match tag with
  | 2 => FlipH img
  | 3 => Rotate180 img
  | 4 => FlipV img
  | 5 => Transpose img
  | 6 => Rotate90 img
  | 7 => Transverse img
  | 8 => Rotate270 img
  | _ => img

/-- Modelled from the spec: the deferred-close error combination used by the
I/O layer (io.go is absent from the source tree). When both a primary
operation error and a deferred resource-release error occur, the two are
surfaced concatenated into one message (spec sections 6 and 9); when only
one occurs it is returned alone. -/
def mergeCloseError (primaryErr closeErr : Option String) : Option String :=
  match primaryErr, closeErr with
  | some p, some c =>
      some ((("original error: ") ++ p ++ (", defer close error: ")) ++ c)
  | some p, none => some p
  | none, some c => some c
  | none, none => none

/-- The typed error values of the I/O layer (spec section 7). -/
inductive Err where
  | unsupportedFormat
  | other (msg : String)
deriving DecidableEq

/-- Modelled from the spec: the Format selector is a Go integer enum with
JPEG, PNG, GIF, BMP, TIFF as consecutive values from zero and -1 as the
failure value returned together with ErrUnsupportedFormat. -/
abbrev Format := Int

def JPEG : Format := 0

def PNG : Format := 1

def GIF : Format := 2

def BMP : Format := 3

def TIFF : Format := 4

/-- ASCII lower-casing of one character, as strings.ToLower acts on the
ASCII extension strings involved here. -/
def lowerChar (c : Char) : Char :=
  if c.isUpper then Char.ofNat (c.toNat + 32) else c

/-- ASCII lower-casing of a string. -/
def toLowerAscii (s : String) : String :=
  String.mk (s.data.map lowerChar)

/-- Drops one leading dot from an extension string, if present. -/
def stripDot (s : String) : String :=
  if s.take 1 = (".") then s.drop 1 else s

/-- Modelled from the spec: FormatFromExtension (io.go is absent from the
source tree). Recognized extensions, matched case-insensitively and with or
without a leading dot, map to their Format; anything else yields the pair
of -1 and ErrUnsupportedFormat, as the unit tests record. -/
def FormatFromExtension (s : String) : Format × Option Err :=
  let e := toLowerAscii (stripDot s)
  if e = ("jpg") ∨ e = ("jpeg") then (JPEG, none)
  else if e = ("png") then (PNG, none)
  else if e = ("gif") then (GIF, none)
  else if e = ("bmp") then (BMP, none)
  else if e = ("tif") ∨ e = ("tiff") then (TIFF, none)
  else (-1, some Err.unsupportedFormat)

/-- The extension of a file name after the last dot, including the dot, as
filepath.Ext computes it; empty when the name has no dot. -/
def lastExtAux (l : List Char) (acc : Option (List Char)) : Option (List Char) :=
  match l with
  | [] => acc
  | c :: rest =>
      if c = '.' then lastExtAux rest (some [])
      else
        match acc with
        | none => lastExtAux rest none
        | some a => lastExtAux rest (some (a ++ [c]))

/-- The extension of a file name, including the leading dot. -/
def fileExt (name : String) : String :=
  match lastExtAux name.data none with
  | none => ("")
  | some a => String.mk ('.' :: a)

/-- Modelled from the spec: the format dispatch of Encode - a recognized
Format selector encodes without a format error, any other selector is
rejected with ErrUnsupportedFormat (spec section 7, unit test with
Format 100). -/
def encodeFormatErr (f : Format) : Option Err :=
  if f = JPEG ∨ f = PNG ∨ f = GIF ∨ f = BMP ∨ f = TIFF then none
  else some Err.unsupportedFormat

/-- Modelled from the spec: the format selection of Save - the file name
extension is resolved through FormatFromExtension and an unrecognized
extension is rejected with ErrUnsupportedFormat. -/
def saveFormatErr (name : String) : Option Err :=
  (FormatFromExtension (fileExt name)).2

/-- The 2x3 source buffer of the flip, transpose and rotate unit tests:
Rect(-1,-1,1,2), stride 8. -/
def testSrc2x3 : NRGBA :=
  { width := 2, height := 3, minX := -1, minY := -1, stride := 8,
    pix := [0x00, 0x11, 0x22, 0x33, 0xcc, 0xdd, 0xee, 0xff,
            0xff, 0x00, 0x00, 0x00, 0x00, 0xff, 0x00, 0x00,
            0x00, 0x00, 0xff, 0x00, 0x00, 0x00, 0x00, 0xff] }

/-- The expected FlipH output of the 2x3 unit test: each row byte-reversed
per pixel, anchored at the origin. -/
def wantFlipH2x3 : NRGBA :=
  { width := 2, height := 3, minX := 0, minY := 0, stride := 8,
    pix := [0xcc, 0xdd, 0xee, 0xff, 0x00, 0x11, 0x22, 0x33,
            0x00, 0xff, 0x00, 0x00, 0xff, 0x00, 0x00, 0x00,
            0x00, 0x00, 0x00, 0xff, 0x00, 0x00, 0xff, 0x00] }

/-- A normalized copy of the 2x3 test buffer, used as a concrete witness
input where a claim requires a buffer in canonical form. -/
def norm2x3 : NRGBA := Clone testSrc2x3

/-- The 4x4 two-tone source buffer of the rotation unit tests:
Rect(-1,-1,3,3), stride 16. -/
def testSrc4x4 : NRGBA :=
  { width := 4, height := 4, minX := -1, minY := -1, stride := 16,
    pix := [0xff, 0x00, 0x00, 0xff, 0xff, 0x00, 0x00, 0xff,
            0xff, 0x00, 0x00, 0xff, 0xff, 0x00, 0x00, 0xff,
            0x00, 0xff, 0x00, 0xff, 0x00, 0xff, 0x00, 0xff,
            0x00, 0xff, 0x00, 0xff, 0x00, 0xff, 0x00, 0xff,
            0x00, 0x00, 0xff, 0xff, 0x00, 0x00, 0xff, 0xff,
            0x00, 0x00, 0xff, 0xff, 0x00, 0x00, 0xff, 0xff,
            0xff, 0xff, 0xff, 0xff, 0xff, 0xff, 0xff, 0xff,
            0xff, 0xff, 0xff, 0xff, 0xff, 0xff, 0xff, 0xff] }

/-- The empty 0x0 buffer of the zero-area rotation unit test. -/
def zeroImg : NRGBA :=
  { width := 0, height := 0, minX := 0, minY := 0, stride := 0, pix := [] }

/-- The opaque black background color of the rotation unit tests. -/
def blackBg : List Nat := [0x00, 0x00, 0x00, 0xff]

/-- Modelled from the spec: the resampling kernel selector (spec section 9)
- a closed tagged-variant enumeration over the runtime filter choices, with
a custom weight-function escape hatch carrying a support radius and a
weighting function. -/
inductive ResampleKernel where
  | nearest
  | linear
  | cubic
  | lanczos
  | box
  | custom (radius : ℚ) (weight : ℚ → ℚ)

/-- Modelled from the spec: resize (spec 4.1; the implementation file is
absent from the source tree). A zero-area source returns the zero-area
buffer without sampling (spec section 3, checked first as all operations
on a zero-area buffer return a zero-area buffer); both target dimensions
zero is the InvalidDimension input error (spec sections 4.1 and 7),
returned as none; exactly one zero target dimension preserves the aspect
ratio using the other, rounded to nearest. The separable per-pixel
resampling arithmetic of the general branch is not modelled (no claim
concerns resize pixel values); zero bytes stand in for every output
pixel of the freshly allocated buffer. -/
def resize (img : NRGBA) (tw th : Nat) (k : ResampleKernel) : Option NRGBA :=
  if img.width = 0 ∨ img.height = 0 then some zeroImg
  else if tw = 0 ∧ th = 0 then none
  else
    let tw2 := if tw = 0 then (img.width * th + img.height / 2) / img.height
      else tw
    let th2 := if th = 0 then (img.height * tw + img.width / 2) / img.width
      else th
    some (mkImage tw2 th2 (fun _ _ => [0, 0, 0, 0]))

/-- Modelled from the spec: convolve (spec 4.4; the implementation file is
absent from the source tree). The output buffer has the dimensions of the
source, freshly allocated and anchored at the origin; a zero-area source
yields the zero-area output without sampling, since the pixel builder is
never consulted over an empty coordinate range. The separable weighted-sum
arithmetic is not modelled (no claim concerns convolution pixel values);
the unit-impulse behavior - each output pixel reading the source pixel at
its own coordinate - stands in. -/
def convolve (img : NRGBA) (kernel : List ℚ) : NRGBA :=
  mkImage img.width img.height (fun x y => pixelAt img x y)

/-- The buffer resize returns for the 2x3 test source at target 4x6 in the
model: a fresh 4x6 buffer anchored at the origin. -/
def resizeOut4x6 : NRGBA := mkImage 4 6 (fun _ _ => [0, 0, 0, 0])

/-- A list of length four is the list of its first four entries. -/
theorem eq_four_of_length : ∀ {l : List Nat}, l.length = 4 →
    l = [l.getD 0 0, l.getD 1 0, l.getD 2 0, l.getD 3 0]
  | [_, _, _, _], _ => rfl

theorem rowPix_succ (w : Nat) (g : Nat → List Nat) :
    rowPix (w + 1) g = rowPix w g ++ g w := by
  simp [rowPix, List.range_succ]

theorem rowPix_length (w : Nat) (g : Nat → List Nat)
    (hg : ∀ x, x < w → (g x).length = 4) : (rowPix w g).length = 4 * w := by
  induction w with
  | zero => simp [rowPix]
  | succ n ih =>
      rw [rowPix_succ, List.length_append, ih (fun x hx => hg x (by omega)),
        hg n (by omega)]
      ring

theorem rowPix_getD (w : Nat) (g : Nat → List Nat)
    (hg : ∀ x, x < w → (g x).length = 4) {x k : Nat} (hx : x < w) (hk : k < 4) :
    (rowPix w g).getD (4 * x + k) 0 = (g x).getD k 0 := by
  induction w with
  | zero => omega
  | succ n ih =>
      rw [rowPix_succ]
      rcases Nat.lt_or_ge x n with h | h
      · rw [List.getD_append]
        · exact ih (fun a ha => hg a (by omega)) h
        · rw [rowPix_length n g (fun a ha => hg a (by omega))]
          omega
      · have hxn : x = n := by omega
        subst hxn
        rw [List.getD_append_right]
        · rw [rowPix_length x g (fun a ha => hg a (by omega))]
          have h1 : 4 * x + k - 4 * x = k := by omega
          rw [h1]
        · rw [rowPix_length x g (fun a ha => hg a (by omega))]
          omega

theorem rowPix_congr {w : Nat} {g g2 : Nat → List Nat}
    (h : ∀ x, x < w → g x = g2 x) : rowPix w g = rowPix w g2 := by
  induction w with
  | zero => rfl
  | succ n ih =>
      rw [rowPix_succ, rowPix_succ, ih (fun x hx => h x (by omega)),
        h n (by omega)]

theorem buildPix_succ (w n : Nat) (f : Nat → Nat → List Nat) :
    buildPix w (n + 1) f = buildPix w n f ++ rowPix w (fun x => f x n) := by
  simp [buildPix, List.range_succ]

theorem buildPix_length (w ht : Nat) (f : Nat → Nat → List Nat)
    (hf : ∀ x y, x < w → y < ht → (f x y).length = 4) :
    (buildPix w ht f).length = ht * (4 * w) := by
  induction ht with
  | zero => simp [buildPix]
  | succ n ih =>
      rw [buildPix_succ, List.length_append,
        ih (fun x y hx hy => hf x y hx (by omega)),
        rowPix_length w _ (fun x hx => hf x n hx (by omega))]
      ring

theorem buildPix_getD (w ht : Nat) (f : Nat → Nat → List Nat)
    (hf : ∀ x y, x < w → y < ht → (f x y).length = 4)
    {x y k : Nat} (hx : x < w) (hy : y < ht) (hk : k < 4) :
    (buildPix w ht f).getD (y * (4 * w) + 4 * x + k) 0 = (f x y).getD k 0 := by
  induction ht with
  | zero => omega
  | succ n ih =>
      rw [buildPix_succ]
      rcases Nat.lt_or_ge y n with h | h
      · rw [List.getD_append]
        · exact ih (fun a b ha hb => hf a b ha (by omega)) h
        · rw [buildPix_length w n f (fun a b ha hb => hf a b ha (by omega))]
          have h1 : 4 * x + k < 4 * w := by omega
          have h2 : (y + 1) * (4 * w) ≤ n * (4 * w) :=
            Nat.mul_le_mul_right (4 * w) (by omega)
          have h3 : (y + 1) * (4 * w) = y * (4 * w) + 4 * w := by ring
          omega
      · have hyn : y = n := by omega
        subst hyn
        rw [List.getD_append_right]
        · rw [buildPix_length w y f (fun a b ha hb => hf a b ha (by omega))]
          have h1 : y * (4 * w) + 4 * x + k - y * (4 * w) = 4 * x + k := by
            omega
          rw [h1]
          exact rowPix_getD w _ (fun a ha => hf a y ha (by omega)) hx hk
        · rw [buildPix_length w y f (fun a b ha hb => hf a b ha (by omega))]
          omega

theorem buildPix_congr {w ht : Nat} {f g : Nat → Nat → List Nat}
    (h : ∀ x y, x < w → y < ht → f x y = g x y) :
    buildPix w ht f = buildPix w ht g := by
  induction ht with
  | zero => rfl
  | succ n ih =>
      rw [buildPix_succ, buildPix_succ,
        ih (fun x y hx hy => h x y hx (by omega))]
      rw [rowPix_congr (fun x hx => h x n hx (by omega))]

/-- Reading a pixel back out of a freshly built buffer returns the builder
function value, whenever the coordinate is in range and every pixel has the
four channel bytes. -/
theorem pixelAt_mkImage (w ht : Nat) (f : Nat → Nat → List Nat)
    (hf : ∀ x y, x < w → y < ht → (f x y).length = 4)
    {x y : Nat} (hx : x < w) (hy : y < ht) :
    pixelAt (mkImage w ht f) x y = f x y := by
  have h4 : (f x y).length = 4 := hf x y hx hy
  have e0 : (buildPix w ht f).getD (y * (4 * w) + 4 * x) 0 = (f x y).getD 0 0 := by
    have h := buildPix_getD w ht f hf hx hy (show (0 : Nat) < 4 by omega)
    simpa using h
  have e1 : (buildPix w ht f).getD (y * (4 * w) + 4 * x + 1) 0 = (f x y).getD 1 0 :=
    buildPix_getD w ht f hf hx hy (by omega)
  have e2 : (buildPix w ht f).getD (y * (4 * w) + 4 * x + 2) 0 = (f x y).getD 2 0 :=
    buildPix_getD w ht f hf hx hy (by omega)
  have e3 : (buildPix w ht f).getD (y * (4 * w) + 4 * x + 3) 0 = (f x y).getD 3 0 :=
    buildPix_getD w ht f hf hx hy (by omega)
  simp only [pixelAt, mkImage]
  rw [e0, e1, e2, e3]
  exact (eq_four_of_length h4).symm

/-- Rebuilding a buffer in canonical form from its own pixels reproduces its
byte sequence. -/
theorem buildPix_pixelAt (img : NRGBA) (hs : img.stride = 4 * img.width)
    (hl : img.pix.length = img.height * (4 * img.width)) :
    buildPix img.width img.height (fun x y => pixelAt img x y) = img.pix := by
  have hlen : (buildPix img.width img.height (fun x y => pixelAt img x y)).length
      = img.height * (4 * img.width) :=
    buildPix_length _ _ _ (fun x y hx hy => rfl)
  apply List.ext_getElem (by omega)
  intro n h1 h2
  rw [hlen] at h1
  by_cases hw0 : img.width = 0
  · rw [hw0] at h1
    simp at h1
  have hWpos : 0 < 4 * img.width := by omega
  have hm : n % (4 * img.width) < 4 * img.width := Nat.mod_lt n hWpos
  obtain ⟨y, x, k, hy, hx, hk, hn⟩ :
      ∃ y x k, y < img.height ∧ x < img.width ∧ k < 4 ∧
        n = y * (4 * img.width) + 4 * x + k := by
    refine ⟨n / (4 * img.width), n % (4 * img.width) / 4,
      n % (4 * img.width) % 4, ?_, ?_, ?_, ?_⟩
    · exact (Nat.div_lt_iff_lt_mul hWpos).2 h1
    · omega
    · omega
    · have h5 := Nat.div_add_mod n (4 * img.width)
      have h6 := Nat.mul_comm (4 * img.width) (n / (4 * img.width))
      omega
  have hp : ∀ j, j < 4 → (pixelAt img x y).getD j 0
      = img.pix.getD (y * (4 * img.width) + 4 * x + j) 0 := by
    intro j hj
    interval_cases j <;> simp [pixelAt, hs]
  calc (buildPix img.width img.height (fun x y => pixelAt img x y))[n]
      = (buildPix img.width img.height (fun x y => pixelAt img x y)).getD n 0 := by
        rw [List.getD_eq_getElem]
    _ = (pixelAt img x y).getD k 0 := by
        rw [hn]
        exact buildPix_getD img.width img.height (fun a b => pixelAt img a b)
          (fun a b ha hb => rfl) hx hy hk
    _ = img.pix.getD (y * (4 * img.width) + 4 * x + k) 0 := hp k hk
    _ = img.pix[n] := by
        rw [← hn]
        exact List.getD_eq_getElem _ _ h2

/-- Rebuilding a normalized buffer from any function that agrees with its
pixels reproduces the buffer itself. -/
theorem mkImage_eq_self (img : NRGBA) (g : Nat → Nat → List Nat)
    (h : Normalized img)
    (hg : ∀ x y, x < img.width → y < img.height → g x y = pixelAt img x y) :
    mkImage img.width img.height g = img := by
  obtain ⟨h1, h2, h3, h4⟩ := h
  have hpix : buildPix img.width img.height g = img.pix := by
    rw [buildPix_congr hg]
    exact buildPix_pixelAt img h3 (by rw [h4]; ring)
  apply NRGBA.ext
  · rfl
  · rfl
  · exact h1.symm
  · exact h2.symm
  · exact h3.symm
  · exact hpix

/-- Cloning a normalized buffer reproduces it exactly. -/
theorem Clone_eq_self (img : NRGBA) (h : Normalized img) : Clone img = img := by
  apply mkImage_eq_self img _ h
  intro x y hx hy
  rfl

theorem FlipH_FlipH (img : NRGBA) (h : Normalized img) :
    FlipH (FlipH img) = img := by
  apply mkImage_eq_self img _ h
  intro x y hx hy
  calc pixelAt (FlipH img) (img.width - 1 - x) y
      = pixelAt img (img.width - 1 - (img.width - 1 - x)) y :=
        pixelAt_mkImage img.width img.height
          (fun a b => pixelAt img (img.width - 1 - a) b)
          (fun a b ha hb => rfl) (by omega) hy
    _ = pixelAt img x y := by
        rw [show img.width - 1 - (img.width - 1 - x) = x by omega]

theorem FlipV_FlipV (img : NRGBA) (h : Normalized img) :
    FlipV (FlipV img) = img := by
  apply mkImage_eq_self img _ h
  intro x y hx hy
  calc pixelAt (FlipV img) x (img.height - 1 - y)
      = pixelAt img x (img.height - 1 - (img.height - 1 - y)) :=
        pixelAt_mkImage img.width img.height
          (fun a b => pixelAt img a (img.height - 1 - b))
          (fun a b ha hb => rfl) hx (by omega)
    _ = pixelAt img x y := by
        rw [show img.height - 1 - (img.height - 1 - y) = y by omega]

theorem Transpose_Transpose (img : NRGBA) (h : Normalized img) :
    Transpose (Transpose img) = img := by
  apply mkImage_eq_self img _ h
  intro x y hx hy
  exact pixelAt_mkImage img.height img.width (fun a b => pixelAt img b a)
    (fun a b ha hb => rfl) hy hx

theorem Transverse_Transverse (img : NRGBA) (h : Normalized img) :
    Transverse (Transverse img) = img := by
  apply mkImage_eq_self img _ h
  intro x y hx hy
  calc pixelAt (Transverse img) (img.height - 1 - y) (img.width - 1 - x)
      = pixelAt img (img.width - 1 - (img.width - 1 - x))
          (img.height - 1 - (img.height - 1 - y)) :=
        pixelAt_mkImage img.height img.width
          (fun a b => pixelAt img (img.width - 1 - b) (img.height - 1 - a))
          (fun a b ha hb => rfl) (by omega) (by omega)
    _ = pixelAt img x y := by
        rw [show img.width - 1 - (img.width - 1 - x) = x by omega,
          show img.height - 1 - (img.height - 1 - y) = y by omega]

theorem Rotate180_Rotate180 (img : NRGBA) (h : Normalized img) :
    Rotate180 (Rotate180 img) = img := by
  apply mkImage_eq_self img _ h
  intro x y hx hy
  calc pixelAt (Rotate180 img) (img.width - 1 - x) (img.height - 1 - y)
      = pixelAt img (img.width - 1 - (img.width - 1 - x))
          (img.height - 1 - (img.height - 1 - y)) :=
        pixelAt_mkImage img.width img.height
          (fun a b => pixelAt img (img.width - 1 - a) (img.height - 1 - b))
          (fun a b ha hb => rfl) (by omega) (by omega)
    _ = pixelAt img x y := by
        rw [show img.width - 1 - (img.width - 1 - x) = x by omega,
          show img.height - 1 - (img.height - 1 - y) = y by omega]

theorem Rotate90_Rotate270 (img : NRGBA) (h : Normalized img) :
    Rotate90 (Rotate270 img) = img := by
  apply mkImage_eq_self img _ h
  intro x y hx hy
  calc pixelAt (Rotate270 img) (img.height - 1 - y) x
      = pixelAt img x (img.height - 1 - (img.height - 1 - y)) :=
        pixelAt_mkImage img.height img.width
          (fun a b => pixelAt img b (img.height - 1 - a))
          (fun a b ha hb => rfl) (by omega) hx
    _ = pixelAt img x y := by
        rw [show img.height - 1 - (img.height - 1 - y) = y by omega]

theorem Rotate270_Rotate90 (img : NRGBA) (h : Normalized img) :
    Rotate270 (Rotate90 img) = img := by
  apply mkImage_eq_self img _ h
  intro x y hx hy
  calc pixelAt (Rotate90 img) y (img.width - 1 - x)
      = pixelAt img (img.width - 1 - (img.width - 1 - x)) y :=
        pixelAt_mkImage img.height img.width
          (fun a b => pixelAt img (img.width - 1 - b) a)
          (fun a b ha hb => rfl) hy (by omega)
    _ = pixelAt img x y := by
        rw [show img.width - 1 - (img.width - 1 - x) = x by omega]

theorem deg45_eq : ((45 : Int) : ℝ) * Real.pi / 180 = Real.pi / 4 := by
  push_cast
  ring

theorem rotX45_00 : rotX 4 4 (((45 : Int) : ℝ) * Real.pi / 180) 0 0 = 2 := by
  simp only [rotX, deg45_eq, Real.cos_pi_div_four, Real.sin_pi_div_four]
  push_cast
  ring

theorem rotX45_40 : rotX 4 4 (((45 : Int) : ℝ) * Real.pi / 180) ((4 : Nat) : ℝ) 0
    = 2 + 2 * Real.sqrt 2 := by
  simp only [rotX, deg45_eq, Real.cos_pi_div_four, Real.sin_pi_div_four]
  push_cast
  ring

theorem rotX45_04 : rotX 4 4 (((45 : Int) : ℝ) * Real.pi / 180) 0 ((4 : Nat) : ℝ)
    = 2 - 2 * Real.sqrt 2 := by
  simp only [rotX, deg45_eq, Real.cos_pi_div_four, Real.sin_pi_div_four]
  push_cast
  ring

theorem rotX45_44 : rotX 4 4 (((45 : Int) : ℝ) * Real.pi / 180) ((4 : Nat) : ℝ)
    ((4 : Nat) : ℝ) = 2 := by
  simp only [rotX, deg45_eq, Real.cos_pi_div_four, Real.sin_pi_div_four]
  push_cast
  ring

theorem rotY45_00 : rotY 4 4 (((45 : Int) : ℝ) * Real.pi / 180) 0 0
    = 2 - 2 * Real.sqrt 2 := by
  simp only [rotY, deg45_eq, Real.cos_pi_div_four, Real.sin_pi_div_four]
  push_cast
  ring

theorem rotY45_40 : rotY 4 4 (((45 : Int) : ℝ) * Real.pi / 180) ((4 : Nat) : ℝ) 0
    = 2 := by
  simp only [rotY, deg45_eq, Real.cos_pi_div_four, Real.sin_pi_div_four]
  push_cast
  ring

theorem rotY45_04 : rotY 4 4 (((45 : Int) : ℝ) * Real.pi / 180) 0 ((4 : Nat) : ℝ)
    = 2 := by
  simp only [rotY, deg45_eq, Real.cos_pi_div_four, Real.sin_pi_div_four]
  push_cast
  ring

theorem rotY45_44 : rotY 4 4 (((45 : Int) : ℝ) * Real.pi / 180) ((4 : Nat) : ℝ)
    ((4 : Nat) : ℝ) = 2 + 2 * Real.sqrt 2 := by
  simp only [rotY, deg45_eq, Real.cos_pi_div_four, Real.sin_pi_div_four]
  push_cast
  ring

/-- A 4x4 source rotated by 45 degrees gets the 6x6 bounding box: the
rotated corners span 4 * sqrt 2 in each axis, and the minimal integer
rectangle containing them runs from -1 to 5 in both coordinates. -/
theorem rotatedSize_4_4_45 : rotatedSize 4 4 45 = (6, 6) := by
  have hq0 : (0 : ℝ) ≤ Real.sqrt 2 := Real.sqrt_nonneg 2
  have hq2 : Real.sqrt 2 ^ 2 = 2 := Real.sq_sqrt (by norm_num)
  have hq1 : (1 : ℝ) < Real.sqrt 2 := by nlinarith
  have hq32 : Real.sqrt 2 ≤ 3 / 2 := by
    nlinarith [sq_nonneg (Real.sqrt 2 - 3 / 2)]
  have mn1 : min (2 : ℝ) (2 + 2 * Real.sqrt 2) = 2 := min_eq_left (by nlinarith)
  have mn2 : min (2 - 2 * Real.sqrt 2) (2 : ℝ) = 2 - 2 * Real.sqrt 2 :=
    min_eq_left (by nlinarith)
  have mn3 : min (2 : ℝ) (2 - 2 * Real.sqrt 2) = 2 - 2 * Real.sqrt 2 :=
    min_eq_right (by nlinarith)
  have mx1 : max (2 : ℝ) (2 + 2 * Real.sqrt 2) = 2 + 2 * Real.sqrt 2 :=
    max_eq_right (by nlinarith)
  have mx2 : max (2 - 2 * Real.sqrt 2) (2 : ℝ) = 2 := max_eq_right (by nlinarith)
  have mx3 : max (2 + 2 * Real.sqrt 2) (2 : ℝ) = 2 + 2 * Real.sqrt 2 :=
    max_eq_left (by nlinarith)
  have hce : ⌈(2 : ℝ) + 2 * Real.sqrt 2⌉ = 5 := by
    rw [Int.ceil_eq_iff]
    constructor
    · push_cast
      nlinarith
    · push_cast
      nlinarith
  have hfl : ⌊(2 : ℝ) - 2 * Real.sqrt 2⌋ = -1 := by
    rw [Int.floor_eq_iff]
    constructor
    · push_cast
      nlinarith
    · push_cast
      nlinarith
  simp only [rotatedSize]
  rw [if_neg (by norm_num)]
  rw [rotX45_00, rotX45_40, rotX45_04, rotX45_44,
    rotY45_00, rotY45_40, rotY45_04, rotY45_44]
  simp only [mn1, mn2, mn3, mx1, mx2, mx3]
  rw [hce, hfl]
  norm_num
  decide

theorem Rotate_emod_zero (img : NRGBA) (bg : List Nat) {angle : Int}
    (h : angle % 360 = 0) : Rotate img angle bg = Clone img := by
  simp [Rotate, h]

theorem Rotate_emod_90 (img : NRGBA) (bg : List Nat) {angle : Int}
    (h : angle % 360 = 90) : Rotate img angle bg = Rotate90 img := by
  simp [Rotate, h]

theorem Rotate_emod_180 (img : NRGBA) (bg : List Nat) {angle : Int}
    (h : angle % 360 = 180) : Rotate img angle bg = Rotate180 img := by
  simp [Rotate, h]

theorem Rotate_emod_270 (img : NRGBA) (bg : List Nat) {angle : Int}
    (h : angle % 360 = 270) : Rotate img angle bg = Rotate270 img := by
  simp [Rotate, h]

theorem Rotate_general (img : NRGBA) (bg : List Nat) {angle : Int}
    (h0 : ¬angle % 360 = 0) (h90 : ¬angle % 360 = 90)
    (h180 : ¬angle % 360 = 180) (h270 : ¬angle % 360 = 270) :
    Rotate img angle bg
      = mkImage (rotatedSize img.width img.height (angle % 360)).1
          (rotatedSize img.width img.height (angle % 360)).2
          (fun _ _ => bg) := by
  simp [Rotate, h0, h90, h180, h270]

theorem buildPix_of_zero {w ht : Nat} (f : Nat → Nat → List Nat)
    (h : w = 0 ∨ ht = 0) : buildPix w ht f = [] := by
  rcases h with h | h
  · subst h
    induction ht with
    | zero => rfl
    | succ n ih =>
        rw [buildPix_succ, ih]
        simp [rowPix]
  · subst h
    simp [buildPix]

theorem mkImage_zero {w ht : Nat} (f : Nat → Nat → List Nat)
    (h : w = 0 ∨ ht = 0) :
    zeroArea (mkImage w ht f) ∧ (mkImage w ht f).pix = [] :=
  ⟨h, buildPix_of_zero f h⟩

theorem Rotate_zero (img : NRGBA) (angle : Int) (bg : List Nat)
    (h : zeroArea img) :
    zeroArea (Rotate img angle bg) ∧ (Rotate img angle bg).pix = [] := by
  have hz : img.width = 0 ∨ img.height = 0 := h
  by_cases h0 : angle % 360 = 0
  · rw [Rotate_emod_zero img bg h0]
    exact mkImage_zero _ hz
  by_cases h90 : angle % 360 = 90
  · rw [Rotate_emod_90 img bg h90]
    exact mkImage_zero _ hz.symm
  by_cases h180 : angle % 360 = 180
  · rw [Rotate_emod_180 img bg h180]
    exact mkImage_zero _ hz
  by_cases h270 : angle % 360 = 270
  · rw [Rotate_emod_270 img bg h270]
    exact mkImage_zero _ hz.symm
  rw [Rotate_general img bg h0 h90 h180 h270]
  have hr : rotatedSize img.width img.height (angle % 360) = (0, 0) := by
    rw [rotatedSize, if_pos hz]
  rw [hr]
  exact mkImage_zero _ (Or.inl rfl)

theorem mkImage_anchored (w ht : Nat) (f : Nat → Nat → List Nat) :
    anchored (mkImage w ht f) :=
  ⟨rfl, rfl, rfl⟩

theorem Rotate_anchored (img : NRGBA) (angle : Int) (bg : List Nat) :
    anchored (Rotate img angle bg) := by
  by_cases h0 : angle % 360 = 0
  · rw [Rotate_emod_zero img bg h0]
    exact mkImage_anchored _ _ _
  by_cases h90 : angle % 360 = 90
  · rw [Rotate_emod_90 img bg h90]
    exact mkImage_anchored _ _ _
  by_cases h180 : angle % 360 = 180
  · rw [Rotate_emod_180 img bg h180]
    exact mkImage_anchored _ _ _
  by_cases h270 : angle % 360 = 270
  · rw [Rotate_emod_270 img bg h270]
    exact mkImage_anchored _ _ _
  rw [Rotate_general img bg h0 h90 h180 h270]
  exact mkImage_anchored _ _ _

theorem resize_anchored (img : NRGBA) (tw th : Nat) (k : ResampleKernel) :
    ∀ out : NRGBA, resize img tw th k = some out → anchored out := by
  intro out h
  by_cases hz : img.width = 0 ∨ img.height = 0
  · rw [show resize img tw th k = some zeroImg from by simp [resize, hz]] at h
    obtain rfl : zeroImg = out := by simpa using h
    exact ⟨rfl, rfl, rfl⟩
  · by_cases ht : tw = 0 ∧ th = 0
    · rw [show resize img tw th k = none from by simp [resize, hz, ht]] at h
      simp at h
    · have hgen : resize img tw th k
          = some (mkImage
              (if tw = 0 then (img.width * th + img.height / 2) / img.height
                else tw)
              (if th = 0 then (img.height * tw + img.width / 2) / img.width
                else th)
              (fun _ _ => [0, 0, 0, 0])) := by
        simp [resize, hz, ht]
      rw [hgen] at h
      obtain rfl : _ = out := by simpa using h
      exact mkImage_anchored _ _ _

theorem resize_zero (img : NRGBA) (tw th : Nat) (k : ResampleKernel)
    (h : zeroArea img) :
    ∃ out : NRGBA, resize img tw th k = some out ∧ zeroArea out ∧
      out.pix = [] := by
  have hz : img.width = 0 ∨ img.height = 0 := h
  exact ⟨zeroImg, by simp [resize, hz], Or.inl rfl, rfl⟩

/-- C1: FlipH writes the input pixel at (x, y) to output position
(w-1-x, y) and FlipV writes it to (x, h-1-y), preserving all four channel
bytes exactly; flipping the concrete 2x3 test buffer horizontally yields
exactly the byte-reversed-per-row buffer of the unit test. -/
theorem C1_flip_pixel_mapping :
    (∀ (img : NRGBA) (x y : Nat), x < img.width → y < img.height →
      pixelAt (FlipH img) (img.width - 1 - x) y = pixelAt img x y ∧
      pixelAt (FlipV img) x (img.height - 1 - y) = pixelAt img x y) ∧
    FlipH testSrc2x3 = wantFlipH2x3 := by
  constructor
  · intro img x y hx hy
    constructor
    · calc pixelAt (FlipH img) (img.width - 1 - x) y
          = pixelAt img (img.width - 1 - (img.width - 1 - x)) y :=
            pixelAt_mkImage img.width img.height
              (fun a b => pixelAt img (img.width - 1 - a) b)
              (fun a b ha hb => rfl) (by omega) hy
        _ = pixelAt img x y := by
            rw [show img.width - 1 - (img.width - 1 - x) = x by omega]
    · calc pixelAt (FlipV img) x (img.height - 1 - y)
          = pixelAt img x (img.height - 1 - (img.height - 1 - y)) :=
            pixelAt_mkImage img.width img.height
              (fun a b => pixelAt img a (img.height - 1 - b))
              (fun a b ha hb => rfl) hx (by omega)
        _ = pixelAt img x y := by
            rw [show img.height - 1 - (img.height - 1 - y) = y by omega]
  · decide

theorem C1_flip_pixel_mapping_witness :
    (0 < testSrc2x3.width ∧ 0 < testSrc2x3.height) ∧
      (pixelAt (FlipH testSrc2x3) (testSrc2x3.width - 1 - 0) 0
          = pixelAt testSrc2x3 0 0 ∧
        pixelAt (FlipV testSrc2x3) 0 (testSrc2x3.height - 1 - 0)
          = pixelAt testSrc2x3 0 0) :=
  ⟨⟨by decide, by decide⟩,
    C1_flip_pixel_mapping.1 testSrc2x3 0 0 (by decide) (by decide)⟩

/-- C2: flipH, flipV and rotate180 are involutions and rotate90 inverts
rotate270, with exact byte equality, on every buffer in canonical form. -/
theorem C2_involutions :
    ∀ img : NRGBA, Normalized img →
      FlipH (FlipH img) = img ∧ FlipV (FlipV img) = img ∧
        Rotate180 (Rotate180 img) = img ∧ Rotate90 (Rotate270 img) = img :=
  fun img h => ⟨FlipH_FlipH img h, FlipV_FlipV img h,
    Rotate180_Rotate180 img h, Rotate90_Rotate270 img h⟩

theorem C2_involutions_witness :
    Normalized norm2x3 ∧
      (FlipH (FlipH norm2x3) = norm2x3 ∧ FlipV (FlipV norm2x3) = norm2x3 ∧
        Rotate180 (Rotate180 norm2x3) = norm2x3 ∧
        Rotate90 (Rotate270 norm2x3) = norm2x3) :=
  ⟨by decide, C2_involutions norm2x3 (by decide)⟩

/-- C3: Rotate normalizes its angle modulo 360 into [0,360), negative
angles included: for every buffer, background and integer n, the angle
360n reproduces the source as its exact clone, and 360n+90, 360n+180 and
360n+270 dispatch to the exact axis rotations, pixel permutations with no
interpolation. -/
theorem C3_angle_normalization :
    (∀ (img : NRGBA) (bg : List Nat) (n : Int),
      Rotate img (360 * n) bg = Clone img ∧
        Rotate img (360 * n + 90) bg = Rotate90 img ∧
        Rotate img (360 * n + 180) bg = Rotate180 img ∧
        Rotate img (360 * n + 270) bg = Rotate270 img) ∧
    (∀ (img : NRGBA) (bg : List Nat) (n : Int), Normalized img →
      Rotate img (360 * n) bg = img) := by
  constructor
  · intro img bg n
    exact ⟨Rotate_emod_zero img bg (by omega),
      Rotate_emod_90 img bg (by omega),
      Rotate_emod_180 img bg (by omega),
      Rotate_emod_270 img bg (by omega)⟩
  · intro img bg n h
    rw [Rotate_emod_zero img bg (by omega)]
    exact Clone_eq_self img h

theorem C3_angle_normalization_witness :
    Normalized norm2x3 ∧ Rotate norm2x3 (360 * (-10)) blackBg = norm2x3 ∧
      Rotate norm2x3 (360 * 10 + 90) blackBg = Rotate90 norm2x3 :=
  ⟨by decide, C3_angle_normalization.2 norm2x3 blackBg (-10) (by decide),
    (C3_angle_normalization.1 norm2x3 blackBg 10).2.1⟩

/-- C4: a zero-area input yields a zero-area output with an empty byte
sequence from every transform operation - the seven axis transforms,
Rotate at any angle and background, convolution with any kernel, and
resize at any target dimensions and filter - and no operation returns an
error on it (the modelled operations are total, and fallible resize
returns a buffer even when both target dimensions are zero, because the
zero-area rule of spec section 3 precedes the dimension check). -/
theorem C4_zero_area_preserved :
    ∀ (img : NRGBA) (angle : Int) (bg : List Nat) (tw th : Nat)
      (k : ResampleKernel) (kern : List ℚ), zeroArea img →
      (zeroArea (FlipH img) ∧ (FlipH img).pix = []) ∧
      (zeroArea (FlipV img) ∧ (FlipV img).pix = []) ∧
      (zeroArea (Transpose img) ∧ (Transpose img).pix = []) ∧
      (zeroArea (Transverse img) ∧ (Transverse img).pix = []) ∧
      (zeroArea (Rotate90 img) ∧ (Rotate90 img).pix = []) ∧
      (zeroArea (Rotate180 img) ∧ (Rotate180 img).pix = []) ∧
      (zeroArea (Rotate270 img) ∧ (Rotate270 img).pix = []) ∧
      (zeroArea (Rotate img angle bg) ∧ (Rotate img angle bg).pix = []) ∧
      (zeroArea (convolve img kern) ∧ (convolve img kern).pix = []) ∧
      (∃ out : NRGBA, resize img tw th k = some out ∧ zeroArea out ∧
        out.pix = []) := by
  intro img angle bg tw th k kern h
  have hz : img.width = 0 ∨ img.height = 0 := h
  exact ⟨mkImage_zero _ hz, mkImage_zero _ hz, mkImage_zero _ hz.symm,
    mkImage_zero _ hz.symm, mkImage_zero _ hz.symm, mkImage_zero _ hz,
    mkImage_zero _ hz.symm, Rotate_zero img angle bg h, mkImage_zero _ hz,
    resize_zero img tw th k h⟩

theorem C4_zero_area_preserved_witness :
    zeroArea zeroImg ∧
      (zeroArea (Rotate zeroImg 123 blackBg) ∧
        (Rotate zeroImg 123 blackBg).pix = []) ∧
      (∃ out : NRGBA, resize zeroImg 0 0 ResampleKernel.box = some out ∧
        zeroArea out ∧ out.pix = []) :=
  ⟨Or.inl rfl,
    (C4_zero_area_preserved zeroImg 123 blackBg 0 0 ResampleKernel.box []
      (Or.inl rfl)).2.2.2.2.2.2.2.1,
    (C4_zero_area_preserved zeroImg 123 blackBg 0 0 ResampleKernel.box []
      (Or.inl rfl)).2.2.2.2.2.2.2.2.2⟩

/-- C5: for angles not congruent to 0, 90, 180 or 270 modulo 360 the
rotation output has the dimensions of the minimal integer rectangle
containing the four rotated corners of the source rectangle, and the 4x4
test buffer rotated by 45 degrees yields a 6x6 output. -/
theorem C5_rotate_bounding_box :
    (∀ (img : NRGBA) (angle : Int) (bg : List Nat),
      ¬(angle % 360 = 0 ∨ angle % 360 = 90 ∨ angle % 360 = 180 ∨
          angle % 360 = 270) →
      (Rotate img angle bg).width
          = (rotatedSize img.width img.height (angle % 360)).1 ∧
        (Rotate img angle bg).height
          = (rotatedSize img.width img.height (angle % 360)).2) ∧
    rotatedSize 4 4 45 = (6, 6) ∧
    (Rotate testSrc4x4 45 blackBg).width = 6 ∧
    (Rotate testSrc4x4 45 blackBg).height = 6 := by
  have hgen : ∀ (img : NRGBA) (angle : Int) (bg : List Nat),
      ¬(angle % 360 = 0 ∨ angle % 360 = 90 ∨ angle % 360 = 180 ∨
          angle % 360 = 270) →
      (Rotate img angle bg).width
          = (rotatedSize img.width img.height (angle % 360)).1 ∧
        (Rotate img angle bg).height
          = (rotatedSize img.width img.height (angle % 360)).2 := by
    intro img angle bg h
    push_neg at h
    obtain ⟨h0, h90, h180, h270⟩ := h
    rw [Rotate_general img bg h0 h90 h180 h270]
    exact ⟨rfl, rfl⟩
  have h45 : ¬((45 : Int) % 360 = 0 ∨ (45 : Int) % 360 = 90 ∨
      (45 : Int) % 360 = 180 ∨ (45 : Int) % 360 = 270) := by decide
  refine ⟨hgen, rotatedSize_4_4_45, ?_, ?_⟩
  · have hx := (hgen testSrc4x4 45 blackBg h45).1
    rw [hx, show (45 : Int) % 360 = 45 from by decide,
      show testSrc4x4.width = 4 from rfl, show testSrc4x4.height = 4 from rfl,
      rotatedSize_4_4_45]
  · have hy := (hgen testSrc4x4 45 blackBg h45).2
    rw [hy, show (45 : Int) % 360 = 45 from by decide,
      show testSrc4x4.width = 4 from rfl, show testSrc4x4.height = 4 from rfl,
      rotatedSize_4_4_45]

theorem C5_rotate_bounding_box_witness :
    ¬((45 : Int) % 360 = 0 ∨ (45 : Int) % 360 = 90 ∨
        (45 : Int) % 360 = 180 ∨ (45 : Int) % 360 = 270) ∧
      ((Rotate testSrc4x4 45 blackBg).width
          = (rotatedSize testSrc4x4.width testSrc4x4.height
              ((45 : Int) % 360)).1 ∧
        (Rotate testSrc4x4 45 blackBg).height
          = (rotatedSize testSrc4x4.width testSrc4x4.height
              ((45 : Int) % 360)).2) :=
  ⟨by decide, C5_rotate_bounding_box.1 testSrc4x4 45 blackBg (by decide)⟩

/-- C6: every EXIF orientation tag 1 through 8 normalizes its stored
buffer back to the reference scene exactly - same bounds, identical pixel
content - via the fixed table composition of axis transforms. -/
theorem C6_orientation_normalizes :
    ∀ img : NRGBA, Normalized img → ∀ tag : Nat, 1 ≤ tag → tag ≤ 8 →
      fixOrientation tag (storedImage tag img) = img := by
  intro img h tag h1 h8
  interval_cases tag
  · rfl
  · exact FlipH_FlipH img h
  · exact Rotate180_Rotate180 img h
  · exact FlipV_FlipV img h
  · exact Transpose_Transpose img h
  · exact Rotate270_Rotate90 img h
  · exact Transverse_Transverse img h
  · exact Rotate90_Rotate270 img h

theorem C6_orientation_normalizes_witness :
    (Normalized norm2x3 ∧ 1 ≤ 6 ∧ 6 ≤ 8) ∧
      fixOrientation 6 (storedImage 6 norm2x3) = norm2x3 :=
  ⟨⟨by decide, by decide, by decide⟩,
    C6_orientation_normalizes norm2x3 (by decide) 6 (by decide) (by decide)⟩

/-- C8: when both the primary operation and the deferred close fail, the
merged error concatenates both messages; the unknown-format read failure
together with the failing close yields exactly the message recorded in the
unit test; a single failure is surfaced alone. -/
theorem C8_merged_close_error :
    (∀ p c : String, mergeCloseError (some p) (some c)
        = some ((("original error: ") ++ p ++ (", defer close error: ")) ++ c)) ∧
    mergeCloseError (some ("image: unknown format"))
        (some ("failed to close file"))
      = some ("original error: image: unknown format, defer close error: failed to close file") ∧
    (∀ p : String, mergeCloseError (some p) none = some p) ∧
    (∀ c : String, mergeCloseError none (some c) = some c) :=
  ⟨fun p c => rfl, by decide, fun p => rfl, fun c => rfl⟩

/-- C9: unsupported format selectors are rejected with the typed
unsupported-format error value, never a panic: Encode with an unrecognized
Format and Save to an unrecognized extension return it, and
FormatFromExtension pairs it with -1, while recognized extensions are
accepted case-insensitively with or without a leading dot and every
extension string receives a total, typed answer. -/
theorem C9_unsupported_format :
    FormatFromExtension ("jpg") = (JPEG, none) ∧
    FormatFromExtension (".jpg") = (JPEG, none) ∧
    FormatFromExtension (".JPG") = (JPEG, none) ∧
    FormatFromExtension ("jpeg") = (JPEG, none) ∧
    FormatFromExtension ("png") = (PNG, none) ∧
    FormatFromExtension (".PNG") = (PNG, none) ∧
    FormatFromExtension ("gif") = (GIF, none) ∧
    FormatFromExtension ("bmp") = (BMP, none) ∧
    FormatFromExtension ("tif") = (TIFF, none) ∧
    FormatFromExtension (".TIFF") = (TIFF, none) ∧
    FormatFromExtension (".unsupportedextension")
      = (-1, some Err.unsupportedFormat) ∧
    encodeFormatErr 100 = some Err.unsupportedFormat ∧
    saveFormatErr ("test.unknown") = some Err.unsupportedFormat ∧
    (∀ s : String, (FormatFromExtension s).2 = none ∨
      FormatFromExtension s = (-1, some Err.unsupportedFormat)) := by
  refine ⟨by decide, by decide, by decide, by decide, by decide, by decide,
    by decide, by decide, by decide, by decide, by decide, by decide,
    by decide, ?_⟩
  intro s
  by_cases h1 : toLowerAscii (stripDot s) = ("jpg") ∨
      toLowerAscii (stripDot s) = ("jpeg")
  · left
    simp [FormatFromExtension, h1]
  by_cases h2 : toLowerAscii (stripDot s) = ("png")
  · left
    simp [FormatFromExtension, h1, h2]
  by_cases h3 : toLowerAscii (stripDot s) = ("gif")
  · left
    simp [FormatFromExtension, h1, h2, h3]
  by_cases h4 : toLowerAscii (stripDot s) = ("bmp")
  · left
    simp [FormatFromExtension, h1, h2, h3, h4]
  by_cases h5 : toLowerAscii (stripDot s) = ("tif") ∨
      toLowerAscii (stripDot s) = ("tiff")
  · left
    simp [FormatFromExtension, h1, h2, h3, h4, h5]
  right
  simp [FormatFromExtension, h1, h2, h3, h4, h5]

/-- C10: every transform operation returns a buffer whose bounds rectangle
is anchored at the origin and whose stride is exactly four times its
width, for every input buffer, including inputs whose bounds minimum is
negative: the seven axis transforms, Clone, Rotate at any angle,
convolution with any kernel, and resize whenever it returns a buffer. -/
theorem C10_anchored_outputs :
    ∀ (img : NRGBA) (angle : Int) (bg : List Nat) (tw th : Nat)
      (k : ResampleKernel) (kern : List ℚ),
      anchored (FlipH img) ∧ anchored (FlipV img) ∧
        anchored (Transpose img) ∧ anchored (Transverse img) ∧
        anchored (Rotate90 img) ∧ anchored (Rotate180 img) ∧
        anchored (Rotate270 img) ∧ anchored (Clone img) ∧
        anchored (Rotate img angle bg) ∧
        anchored (convolve img kern) ∧
        (∀ out : NRGBA, resize img tw th k = some out → anchored out) :=
  fun img angle bg tw th k kern =>
    ⟨mkImage_anchored _ _ _, mkImage_anchored _ _ _, mkImage_anchored _ _ _,
      mkImage_anchored _ _ _, mkImage_anchored _ _ _, mkImage_anchored _ _ _,
      mkImage_anchored _ _ _, mkImage_anchored _ _ _,
      Rotate_anchored img angle bg, mkImage_anchored _ _ _,
      resize_anchored img tw th k⟩

theorem C10_anchored_outputs_witness :
    resize testSrc2x3 4 6 ResampleKernel.nearest = some resizeOut4x6 ∧
      anchored resizeOut4x6 :=
  ⟨by decide,
    (C10_anchored_outputs testSrc2x3 0 [] 4 6 ResampleKernel.nearest
      []).2.2.2.2.2.2.2.2.2.2 resizeOut4x6 (by decide)⟩

end Imaging
